import Mathlib

/-!
Shallow embedding of the jerotaxyz/server campaign-and-rewards API core.

The definitions below are translated from the repository's source:
  - src/services/verification.js  (platform detection, proof hashing, verifyAction)
  - src/services/blockchain.js    (token allowlist, validateCampaignTokens)
  - src/controllers/campaignController.js (createCampaign, getCampaigns,
    participateInCampaign)
  - src/controllers/rewardController.js   (claimReward)
  - src/models/Campaign.js, src/models/User.js (data shapes)

Conventions of the embedding:
  - Mongo ObjectIds are modelled as Nat; Date values as Nat (milliseconds).
  - The mutable document store is a pair of lists (users, campaigns); each
    controller is a function from a state and request data to the new state
    together with an Except result (the JS code either responds or calls
    next(error)).  Side effects that the JS code persists before a later
    failure (e.g. the $addToSet on campaignsParticipated that runs before the
    max-claims check) are reflected in the returned state of the error branch.
  - JavaScript truthiness of the optional numeric maxClaims field
    (`if (rewardRule.maxClaims)`) is modelled by maxClaimsTruthy: undefined
    and 0 are both falsy.
  - Strings in play are ASCII, so Buffer.from(s).toString('base64') is
    modelled by base64 over the char codes of s.
-/

namespace Jerota

structure Token where
  address : String
  name : String
deriving DecidableEq, Repr

structure RewardRule where
  action : String
  rewardAmount : Rat
  token : Token
  maxClaims : Option Nat
deriving DecidableEq, Repr

structure ActionRecord where
  actionType : String
  verifiedAt : Nat
  proof : String
deriving DecidableEq, Repr

structure Participant where
  userId : Nat
  actions : List ActionRecord
deriving DecidableEq, Repr

structure Campaign where
  id : Nat
  creatorId : Nat
  title : String
  description : String
  budgetAmount : Rat
  budgetToken : Token
  rewardRules : List RewardRule
  status : String
  startDate : Nat
  endDate : Nat
  contentUrl : String
  participants : List Participant
  createdAt : Nat
deriving DecidableEq, Repr

structure RewardEntry where
  campaignId : Nat
  amount : Rat
  token : Token
  claimedAt : Nat
deriving DecidableEq, Repr

structure User where
  id : Nat
  walletAddress : String
  username : String
  role : String
  campaignsCreated : List Nat
  campaignsParticipated : List Nat
  rewardsEarned : List RewardEntry
deriving DecidableEq, Repr

structure VerificationResult where
  verified : Bool
  platform : String
  action : String
  timestamp : Nat
  proofHash : String
deriving DecidableEq, Repr

/-- The error taxonomy of the controllers: each constructor corresponds to one
of the AppError / thrown-Error exits of the source. -/
inductive AppErr where
  | forbidden (msg : String)
  | notFound (msg : String)
  | validationErr (msg : String)
  | tokenNotAllowed (address : String)
  | campaignNotActive
  | outsideDateWindow
  | actionNotRewarded (action : String)
  | unsupportedAction (msg : String)
  | verificationFailed
  | notParticipated
  | actionNotVerified
  | maxClaimsReached (max : Nat) (action : String)
  | maxRewardsClaimed (max : Nat)
deriving DecidableEq, Repr

/-- Response payload of participateInCampaign (verification + advisory reward). -/
structure ParticipationData where
  verification : VerificationResult
  rewardAmount : Rat
  rewardToken : Token
deriving DecidableEq, Repr

/-- Response payload of claimReward. -/
structure ClaimData where
  campaignId : Nat
  campaignTitle : String
  action : String
  amount : Rat
  token : Token
  claimedAt : Nat
deriving DecidableEq, Repr

/-- The document store: all users and all campaigns. -/
structure St where
  users : List User
  campaigns : List Campaign
deriving DecidableEq, Repr

instance instDecEqExcept {ε α : Type} [DecidableEq ε] [DecidableEq α] :
    DecidableEq (Except ε α)
  | Except.error a, Except.error b => decidable_of_iff (a = b) (by simp)
  | Except.error _, Except.ok _ => isFalse (by simp)
  | Except.ok _, Except.error _ => isFalse (by simp)
  | Except.ok a, Except.ok b => decidable_of_iff (a = b) (by simp)

/-! ## Verification service (src/services/verification.js) -/

def b64chars : List Char :=
  "ABCDEFGHIJKLMNOPQRSTUVWXYZabcdefghijklmnopqrstuvwxyz0123456789+/".data

def b64char (n : Nat) : Char := b64chars.getD n '?'

/-- Standard base64 of a byte list (the encoding Buffer.toString('base64')
performs), produced as a char list. -/
def b64encode : List Nat → List Char
  | b0 :: b1 :: b2 :: rest =>
      b64char (b0 / 4) :: b64char ((b0 % 4) * 16 + b1 / 16) ::
      b64char ((b1 % 16) * 4 + b2 / 64) :: b64char (b2 % 64) :: b64encode rest
  | [b0, b1] =>
      [b64char (b0 / 4), b64char ((b0 % 4) * 16 + b1 / 16), b64char ((b1 % 16) * 4), '=']
  | [b0] => [b64char (b0 / 4), b64char ((b0 % 4) * 16), '=', '=']
  | [] => []

/-- Char codes of a string (equal to its UTF-8 bytes for the ASCII strings in
play). -/
def strBytes (s : String) : List Nat := s.data.map Char.toNat

/-- generateProofHash (verification.js:414-419):
Buffer.from(proof + Date.now()).toString('base64').substring(0, 32).
The current time is an explicit argument. -/
def generateProofHash (proof : String) (now : Nat) : String :=
  String.mk ((b64encode (strBytes (proof ++ toString now))).take 32)

/-- JS String.prototype.includes, on char lists: does hay contain needle? -/
def containsSub (needle : List Char) : List Char → Bool
  | [] => needle.isPrefixOf []
  | c :: t => needle.isPrefixOf (c :: t) || containsSub needle t

def strIncludes (s sub : String) : Bool := containsSub sub.data s.data

/-- getPlatformFromUrl (verification.js:164-170). -/
def getPlatformFromUrl (contentUrl : String) : String :=
  if strIncludes contentUrl "spotify.com" then "spotify"
  else if strIncludes contentUrl "youtube.com" || strIncludes contentUrl "youtu.be" then "youtube"
  else if strIncludes contentUrl "twitter.com" || strIncludes contentUrl "x.com" then "twitter"
  else if strIncludes contentUrl "instagram.com" then "instagram"
  else "unknown"

/-- mockVerification (verification.js:398-407): note it hashes the literal
"mock-action-platform" string, not the caller's proof. -/
def mockVerification (action platform : String) (now : Nat) : VerificationResult :=
  { verified := true, platform := platform, action := action, timestamp := now,
    proofHash := generateProofHash ("mock-" ++ action ++ "-" ++ platform) now }

/-- verifyStream (verification.js:179-195); the spotify/youtube mock verifiers
are inlined (each returns verified:true with proofHash of the proof). -/
def verifyStream (contentUrl proof _userWallet : String) (now : Nat) : VerificationResult :=
  let platform := getPlatformFromUrl contentUrl
  if platform = "spotify" then
    { verified := true, platform := "spotify", action := "stream", timestamp := now,
      proofHash := generateProofHash proof now }
  else if platform = "youtube" then
    { verified := true, platform := "youtube", action := "stream", timestamp := now,
      proofHash := generateProofHash proof now }
  else mockVerification "stream" platform now

/-- verifyShare (verification.js:204-218). -/
def verifyShare (contentUrl proof _userWallet : String) (now : Nat) : VerificationResult :=
  let platform := getPlatformFromUrl contentUrl
  if platform = "twitter" then
    { verified := true, platform := "twitter", action := "share", timestamp := now,
      proofHash := generateProofHash proof now }
  else mockVerification "share" platform now

/-- verifyFollow (verification.js:227-243). -/
def verifyFollow (contentUrl proof _userWallet : String) (now : Nat) : VerificationResult :=
  let platform := getPlatformFromUrl contentUrl
  if platform = "twitter" then
    { verified := true, platform := "twitter", action := "follow", timestamp := now,
      proofHash := generateProofHash proof now }
  else if platform = "spotify" then
    { verified := true, platform := "spotify", action := "follow", timestamp := now,
      proofHash := generateProofHash proof now }
  else mockVerification "follow" platform now

/-- verifyLike (verification.js:252-266). -/
def verifyLike (contentUrl proof _userWallet : String) (now : Nat) : VerificationResult :=
  let platform := getPlatformFromUrl contentUrl
  if platform = "youtube" then
    { verified := true, platform := "youtube", action := "like", timestamp := now,
      proofHash := generateProofHash proof now }
  else mockVerification "like" platform now

/-- verifyComment (verification.js:275-289). -/
def verifyComment (contentUrl proof _userWallet : String) (now : Nat) : VerificationResult :=
  let platform := getPlatformFromUrl contentUrl
  if platform = "youtube" then
    { verified := true, platform := "youtube", action := "comment", timestamp := now,
      proofHash := generateProofHash proof now }
  else mockVerification "comment" platform now

/-- The five recognized action kinds, in the order of the verifyAction switch. -/
def actionKinds : List String := ["stream", "share", "follow", "like", "comment"]

/-- verifyAction (verification.js:429-444); the default case throws, modelled
as Except.error with the thrown message. -/
def verifyAction (action contentUrl proof userWallet : String) (now : Nat) :
    Except String VerificationResult :=
  if action = "stream" then Except.ok (verifyStream contentUrl proof userWallet now)
  else if action = "share" then Except.ok (verifyShare contentUrl proof userWallet now)
  else if action = "follow" then Except.ok (verifyFollow contentUrl proof userWallet now)
  else if action = "like" then Except.ok (verifyLike contentUrl proof userWallet now)
  else if action = "comment" then Except.ok (verifyComment contentUrl proof userWallet now)
  else Except.error ("Unsupported action type: " ++ action)

/-! ## Token allowlist (src/services/blockchain.js) -/

/-- The mock allowlist returned by getAllowedTokens (blockchain.js:28-45).
The 5-minute cache always yields this same constant list, so the cache is not
modelled. -/
def allowedTokens : List Token :=
  [⟨"0x1234567890123456789012345678901234567890", "USDC"⟩,
   ⟨"0xdAC17F958D2ee523a2206206994597C13D831ec7", "USDT"⟩,
   ⟨"0x6033F7f88332B8db6ad452b7C6d5bb643990ae3f", "LSK"⟩,
   ⟨"0x1f9840a85d5aF5bf1D1762F925BDADdC4201F984", "UNI"⟩]

/-- JS String.prototype.toLowerCase on the ASCII strings in play. -/
def strToLower (s : String) : String := String.mk (s.data.map Char.toLower)

/-- isTokenAllowed (blockchain.js:64-74): case-insensitive address match. -/
def isTokenAllowed (addr : String) : Bool :=
  allowedTokens.any (fun t => strToLower t.address == strToLower addr)

/-- Reward-rule half of validateCampaignTokens (blockchain.js:129-134). -/
def validateRuleTokens : List RewardRule → Except AppErr Unit
  | [] => Except.ok ()
  | r :: rest =>
      if isTokenAllowed r.token.address = false then
        Except.error (AppErr.tokenNotAllowed r.token.address)
      else validateRuleTokens rest

/-- validateCampaignTokens (blockchain.js:120-141): budget token first, then
each reward-rule token, first failure wins. -/
def validateCampaignTokens (budgetToken : Token) (rules : List RewardRule) :
    Except AppErr Unit :=
  if isTokenAllowed budgetToken.address = false then
    Except.error (AppErr.tokenNotAllowed budgetToken.address)
  else validateRuleTokens rules

/-! ## Store helpers (Mongoose lookup / update patterns used by the controllers) -/

/-- User lookup by id (req.user resolution / findByIdAndUpdate target). -/
def findUser (us : List User) (uid : Nat) : Option User :=
  us.find? (fun u => u.id == uid)

/-- Campaign.findById. -/
def findCampaign (cs : List Campaign) (cid : Nat) : Option Campaign :=
  cs.find? (fun c => c.id == cid)

/-- campaign.rewardRules.find(rule => rule.action === action). -/
def findRewardRule (c : Campaign) (action : String) : Option RewardRule :=
  c.rewardRules.find? (fun r => r.action == action)

/-- campaign.participants.find(p => p.userId === user._id). -/
def findParticipant (c : Campaign) (uid : Nat) : Option Participant :=
  c.participants.find? (fun p : Participant => p.userId == uid)

/-- participant.actions.filter(a => a.actionType === action).length. -/
def countActions (p : Participant) (action : String) : Nat :=
  (p.actions.filter (fun a => a.actionType == action)).length

/-- user.rewardsEarned.filter(r => r.campaignId === campaignId
and r.token.address === tokenAddr).length. -/
def countRewards (u : User) (cid : Nat) (tokenAddr : String) : Nat :=
  (u.rewardsEarned.filter
    (fun r => r.campaignId == cid && r.token.address == tokenAddr)).length

/-- JS truthiness of the optional numeric maxClaims: undefined and 0 are falsy. -/
def maxClaimsTruthy : Option Nat → Bool
  | some n => n != 0
  | none => false

/-- Mutating the first participant whose userId matches (the JS code mutates
the object returned by Array.prototype.find) by appending an action record. -/
def appendActionTo (ps : List Participant) (uid : Nat) (rec : ActionRecord) :
    List Participant :=
  match ps with
  | [] => []
  | p :: t =>
      if p.userId == uid then { p with actions := p.actions ++ [rec] } :: t
      else p :: appendActionTo t uid rec

/-- campaign.save(): write the mutated document back by id. -/
def saveCampaign (cs : List Campaign) (c : Campaign) : List Campaign :=
  cs.map (fun x => if x.id == c.id then c else x)

/-- User.findByIdAndUpdate with an update function. -/
def updateUserF (us : List User) (uid : Nat) (f : User → User) : List User :=
  us.map (fun u => if u.id == uid then f u else u)

/-- Mongo $addToSet on a list of ids. -/
def addToSet (l : List Nat) (x : Nat) : List Nat :=
  if l.contains x then l else l ++ [x]

/-! ## participateInCampaign (campaignController.js:189-291) -/

/-- recordParticipation.  The returned state reflects exactly what the JS code
persists: on the MaxClaimsReached exit the campaign document is NOT saved (the
in-memory participants push is discarded) but the $addToSet on the user's
campaignsParticipated HAS already been persisted when the fan was a new
participant. -/
def participateInCampaign (st : St) (callerId campaignId : Nat)
    (action proof : String) (now : Nat) : St × Except AppErr ParticipationData :=
  match findUser st.users callerId with
  | none => (st, Except.error (AppErr.notFound "User not found"))
  | some user =>
    if user.role ≠ "fan" then
      (st, Except.error (AppErr.forbidden "Only fans can participate in campaigns"))
    else
    match findCampaign st.campaigns campaignId with
    | none => (st, Except.error (AppErr.notFound "Campaign not found"))
    | some campaign =>
      if campaign.status ≠ "active" then (st, Except.error AppErr.campaignNotActive)
      else if now < campaign.startDate ∨ campaign.endDate < now then
        (st, Except.error AppErr.outsideDateWindow)
      else
      match findRewardRule campaign action with
      | none => (st, Except.error (AppErr.actionNotRewarded action))
      | some rewardRule =>
        match verifyAction action campaign.contentUrl proof user.walletAddress now with
        | Except.error msg => (st, Except.error (AppErr.unsupportedAction msg))
        | Except.ok verification =>
          if verification.verified = false then (st, Except.error AppErr.verificationFailed)
          else
            -- locate-or-create the participant; creating one immediately
            -- persists the $addToSet on the user's campaignsParticipated
            let pstate :=
              match findParticipant campaign callerId with
              | some participant => (participant, campaign.participants, st.users)
              | none =>
                ((⟨callerId, []⟩ : Participant),
                 campaign.participants ++ [(⟨callerId, []⟩ : Participant)],
                 updateUserF st.users callerId
                   (fun u => { u with campaignsParticipated :=
                                 addToSet u.campaignsParticipated campaignId }))
            if maxClaimsTruthy rewardRule.maxClaims = true ∧
                rewardRule.maxClaims.getD 0 ≤ countActions pstate.1 action then
              (⟨pstate.2.2, st.campaigns⟩,
               Except.error (AppErr.maxClaimsReached (rewardRule.maxClaims.getD 0) action))
            else
              let newRec : ActionRecord := ⟨action, now, verification.proofHash⟩
              (⟨pstate.2.2,
                saveCampaign st.campaigns
                  { campaign with participants := appendActionTo pstate.2.1 callerId newRec }⟩,
               Except.ok ⟨verification, rewardRule.rewardAmount, rewardRule.token⟩)

/-- Sequential repetition of the same participation request, threading the
state; the Bool records whether every call succeeded. -/
def participateRepeat (k : Nat) (st : St) (callerId campaignId : Nat)
    (action proof : String) (now : Nat) : St × Bool :=
  match k with
  | 0 => (st, true)
  | Nat.succ j =>
      let step := participateInCampaign st callerId campaignId action proof now
      let rest := participateRepeat j step.1 callerId campaignId action proof now
      (rest.1, step.2.toBool && rest.2)

/-! ## claimReward (rewardController.js:10-131) -/

/-- claimReward.  (The source also computes an unused existingReward lookup at
rewardController.js:72-77; it has no effect on behaviour and is not modelled.) -/
def claimReward (st : St) (callerId campaignId : Nat)
    (action proof : String) (now : Nat) : St × Except AppErr ClaimData :=
  match findUser st.users callerId with
  | none => (st, Except.error (AppErr.notFound "User not found"))
  | some user =>
    if user.role ≠ "fan" then
      (st, Except.error (AppErr.forbidden "Only fans can claim rewards"))
    else
    match findCampaign st.campaigns campaignId with
    | none => (st, Except.error (AppErr.notFound "Campaign not found"))
    | some campaign =>
      if campaign.status ≠ "active" then (st, Except.error AppErr.campaignNotActive)
      else if now < campaign.startDate ∨ campaign.endDate < now then
        (st, Except.error AppErr.outsideDateWindow)
      else
      match findRewardRule campaign action with
      | none => (st, Except.error (AppErr.actionNotRewarded action))
      | some rewardRule =>
        match verifyAction action campaign.contentUrl proof user.walletAddress now with
        | Except.error msg => (st, Except.error (AppErr.unsupportedAction msg))
        | Except.ok verification =>
          if verification.verified = false then (st, Except.error AppErr.verificationFailed)
          else
          match findParticipant campaign callerId with
          | none => (st, Except.error AppErr.notParticipated)
          | some participant =>
            if (participant.actions.any
                  (fun a => a.actionType == action && a.proof == verification.proofHash))
                = false then
              (st, Except.error AppErr.actionNotVerified)
            else if maxClaimsTruthy rewardRule.maxClaims = true ∧
                rewardRule.maxClaims.getD 0 ≤ countRewards user campaignId rewardRule.token.address then
              (st, Except.error (AppErr.maxRewardsClaimed (rewardRule.maxClaims.getD 0)))
            else
              (⟨updateUserF st.users callerId
                  (fun u => { u with rewardsEarned :=
                      u.rewardsEarned ++
                        [⟨campaign.id, rewardRule.rewardAmount, rewardRule.token, now⟩] }),
                st.campaigns⟩,
               Except.ok ⟨campaign.id, campaign.title, action,
                          rewardRule.rewardAmount, rewardRule.token, now⟩)

/-! ## createCampaign (campaignController.js:11-55) -/

structure CampaignInput where
  title : String
  description : String
  budgetAmount : Rat
  budgetToken : Token
  rewardRules : List RewardRule
  startDate : Nat
  endDate : Nat
  contentUrl : String
deriving DecidableEq, Repr

/-- createCampaign: role check, date-order check, whole-campaign token
validation, then (and only then) persist the campaign and push its id onto the
creator's campaignsCreated. -/
def createCampaign (st : St) (callerId : Nat) (inp : CampaignInput)
    (newId now : Nat) : St × Except AppErr Campaign :=
  match findUser st.users callerId with
  | none => (st, Except.error (AppErr.notFound "User not found"))
  | some user =>
    if user.role ≠ "creator" then
      (st, Except.error (AppErr.forbidden "Only creators can create campaigns"))
    else if inp.endDate ≤ inp.startDate then
      (st, Except.error (AppErr.validationErr "End date must be after start date"))
    else
    match validateCampaignTokens inp.budgetToken inp.rewardRules with
    | Except.error e => (st, Except.error e)
    | Except.ok _ =>
      let campaign : Campaign :=
        { id := newId, creatorId := callerId, title := inp.title,
          description := inp.description, budgetAmount := inp.budgetAmount,
          budgetToken := inp.budgetToken, rewardRules := inp.rewardRules,
          status := "draft", startDate := inp.startDate, endDate := inp.endDate,
          contentUrl := inp.contentUrl, participants := [], createdAt := now }
      (⟨updateUserF st.users callerId
          (fun u => { u with campaignsCreated := u.campaignsCreated ++ [newId] }),
        st.campaigns ++ [campaign]⟩,
       Except.ok campaign)

/-! ## getCampaigns (campaignController.js:91-143) -/

/-- Descending order on creation time (Mongo sort createdAt: -1). -/
def createdDesc (a b : Campaign) : Prop := b.createdAt ≤ a.createdAt

instance : DecidableRel createdDesc := fun a b => Nat.decLe b.createdAt a.createdAt

instance : IsTotal Campaign createdDesc :=
  ⟨fun a b => (Nat.le_total b.createdAt a.createdAt).imp id id⟩

instance : IsTrans Campaign createdDesc :=
  ⟨fun _ _ _ hab hbc => Nat.le_trans hbc hab⟩

structure Pagination where
  page : Nat
  limit : Nat
  total : Nat
  pages : Nat
deriving DecidableEq, Repr

structure CampaignPage where
  campaigns : List Campaign
  pagination : Pagination
deriving DecidableEq, Repr

/-- The Mongo filter object built at campaignController.js:96-113: status
equality, creatorId equality (only when the username lookup succeeds), and a
gte/lte range on startDate. -/
def campaignMatches (statusF : Option String) (creatorIdF : Option Nat)
    (startF endF : Option Nat) (c : Campaign) : Bool :=
  (match statusF with | none => true | some s => c.status == s) &&
  (match creatorIdF with | none => true | some i => c.creatorId == i) &&
  (match startF with | none => true | some d => decide (d ≤ c.startDate)) &&
  (match endF with | none => true | some d => decide (c.startDate ≤ d))

/-- getCampaigns: resolve the creator-username filter (silently dropped when no
user matches), filter, sort newest-first, paginate with skip/limit, and report
total and pages = Math.ceil(total / limit). -/
def getCampaigns (st : St) (statusF : Option String) (creatorF : Option String)
    (startF endF : Option Nat) (page limit : Nat) : CampaignPage :=
  let creatorIdF : Option Nat :=
    match creatorF with
    | none => none
    | some name =>
        match st.users.find? (fun u => u.username == name) with
        | some u => some u.id
        | none => none
  let filtered := st.campaigns.filter (campaignMatches statusF creatorIdF startF endF)
  let sorted := List.insertionSort createdDesc filtered
  let total := filtered.length
  let skip := (page - 1) * limit
  { campaigns := (sorted.drop skip).take limit,
    pagination := { page := page, limit := limit, total := total,
                    pages := (total + limit - 1) / limit } }

/-! ## Concrete fixtures (used by witnesses and counterexamples) -/

def usdcTok : Token := ⟨"0x1234567890123456789012345678901234567890", "USDC"⟩

def demoCreator : User :=
  ⟨1, "0x1111111111111111111111111111111111111111", "testcreator", "creator", [], [], []⟩

def demoFan : User :=
  ⟨2, "0x742d35cc6634c0532925a3b8d4c0532925a3b8d4", "testfan", "fan", [], [], []⟩

/-- An active, in-window campaign rewarding "stream" with maxClaims 10
(the scenario of spec section 8). -/
def demoCampaign : Campaign :=
  { id := 10, creatorId := 1, title := "Test Campaign", description := "d",
    budgetAmount := 1000, budgetToken := usdcTok,
    rewardRules := [⟨"stream", 1 / 2, usdcTok, some 10⟩],
    status := "active", startDate := 1, endDate := 1800000000000,
    contentUrl := "https://open.spotify.com/track/example",
    participants := [], createdAt := 5 }

def demoSt : St := ⟨[demoCreator, demoFan], [demoCampaign]⟩

/-- Like demoCampaign but the stream rule is capped at maxClaims = 2. -/
def demoCampaignCap2 : Campaign :=
  { demoCampaign with id := 11, rewardRules := [⟨"stream", 1 / 2, usdcTok, some 2⟩] }

def demoStCap2 : St := ⟨[demoCreator, demoFan], [demoCampaignCap2]⟩

/-- Like demoCampaign but the stream rule has maxClaims = 0. -/
def demoCampaignCap0 : Campaign :=
  { demoCampaign with id := 12, rewardRules := [⟨"stream", 1 / 2, usdcTok, some 0⟩] }

def demoStCap0 : St := ⟨[demoCreator, demoFan], [demoCampaignCap0]⟩

/-- maxClaims = 0 campaign on which the fan already has one verified "stream"
action whose stored proof is exactly the fingerprint the verifier recomputes
for proof "p" at time 1700000000000. -/
def demoCampaignCap0Acted : Campaign :=
  { demoCampaignCap0 with
    id := 13,
    participants := [⟨2, [⟨"stream", 9, generateProofHash "p" 1700000000000⟩]⟩] }

def demoStCap0Acted : St := ⟨[demoCreator, demoFan], [demoCampaignCap0Acted]⟩

/-- Campaign whose stream rule is capped at maxClaims = 1, with the fan holding
a matching verified action, and a fan user that has already claimed once. -/
def demoCampaignCap1Acted : Campaign :=
  { demoCampaign with
    id := 14,
    rewardRules := [⟨"stream", 1 / 2, usdcTok, some 1⟩],
    participants := [⟨2, [⟨"stream", 9, generateProofHash "p" 1700000000000⟩]⟩] }

def demoFanClaimed1 : User :=
  { demoFan with rewardsEarned := [⟨14, 1 / 2, usdcTok, 8⟩] }

def demoStCap1Acted : St := ⟨[demoCreator, demoFanClaimed1], [demoCampaignCap1Acted]⟩

/-- A createCampaign input whose budget token is not on the allowlist. -/
def demoBadInput : CampaignInput :=
  { title := "Bad", description := "d", budgetAmount := 10,
    budgetToken := ⟨"0xdeadbeefdeadbeefdeadbeefdeadbeefdeadbeef", "EVIL"⟩,
    rewardRules := [⟨"stream", 1 / 2, usdcTok, some 10⟩],
    startDate := 1, endDate := 2, contentUrl := "https://x.com/post" }

/-- A second active campaign and a draft campaign, for the listing claims. -/
def demoCampaignB : Campaign :=
  { demoCampaign with id := 20, title := "B", createdAt := 50 }

def demoCampaignDraft : Campaign :=
  { demoCampaign with id := 21, title := "C", status := "draft", createdAt := 70 }

def demoStList : St :=
  ⟨[demoCreator, demoFan], [demoCampaign, demoCampaignB, demoCampaignDraft]⟩

/-- The state shape reached after a fresh fan's successful participation
calls: the fan's campaignsParticipated has been $addToSet-ed once, and the
campaign has gained a single trailing Participant entry holding recs. -/
def stStep (st : St) (fanId cid : Nat) (cg : Campaign) (recs : List ActionRecord) : St :=
  ⟨updateUserF st.users fanId
     (fun u => { u with campaignsParticipated := addToSet u.campaignsParticipated cid }),
   saveCampaign st.campaigns { cg with participants := cg.participants ++ [⟨fanId, recs⟩] }⟩

/-! ## Shared lemmas about the store helpers -/

theorem find_cons_true {α : Type} (p : α → Bool) (v : α) (t : List α)
    (h : p v = true) : (v :: t).find? p = some v := by
  rw [List.find?_cons, h]

theorem find_cons_false {α : Type} (p : α → Bool) (v : α) (t : List α)
    (h : p v = false) : (v :: t).find? p = t.find? p := by
  rw [List.find?_cons, h]

theorem findUser_update (us : List User) (uid : Nat) (f : User → User) (u : User)
    (hu : findUser us uid = some u) (hid : ∀ x, (f x).id = x.id) :
    findUser (updateUserF us uid f) uid = some (f u) := by
  induction us with
  | nil => simp [findUser] at hu
  | cons v t ih =>
    simp only [findUser, updateUserF, List.map_cons] at hu ⊢
    cases hv : (v.id == uid) with
    | true =>
      rw [find_cons_true (fun x => x.id == uid) v t hv] at hu
      have hvu : v = u := Option.some.inj hu
      subst hvu
      rw [if_pos rfl]
      exact find_cons_true (fun x => x.id == uid) (f v) _
        (by show ((f v).id == uid) = true; rw [hid v]; exact hv)
    | false =>
      rw [find_cons_false (fun x => x.id == uid) v t hv] at hu
      rw [if_neg (by simp)]
      rw [find_cons_false (fun x => x.id == uid) v _ hv]
      exact ih hu

theorem findCampaign_eq_id (cs : List Campaign) (cid : Nat) (cg : Campaign)
    (hc : findCampaign cs cid = some cg) : cg.id = cid := by
  have := List.find?_some hc
  simpa using this

theorem findUser_eq_id (us : List User) (uid : Nat) (u : User)
    (hu : findUser us uid = some u) : u.id = uid := by
  have := List.find?_some hu
  simpa using this

theorem findCampaign_save (cs : List Campaign) (cid : Nat) (cg c : Campaign)
    (hc : findCampaign cs cid = some cg) (hid : c.id = cg.id) :
    findCampaign (saveCampaign cs c) cid = some c := by
  have hcid : cg.id = cid := findCampaign_eq_id cs cid cg hc
  induction cs with
  | nil => simp [findCampaign] at hc
  | cons v t ih =>
    simp only [findCampaign, saveCampaign, List.map_cons] at hc ⊢
    by_cases hv : (v.id == c.id) = true
    · rw [if_pos hv]
      exact find_cons_true (fun x => x.id == cid) c _
        (by show (c.id == cid) = true; rw [hid, hcid]; simp)
    · have hv2 : (v.id == cid) = false := by
        rw [← hcid, ← hid]
        simpa using hv
      rw [find_cons_false (fun x => x.id == cid) v t hv2] at hc
      rw [if_neg hv]
      rw [find_cons_false (fun x => x.id == cid) v _ hv2]
      exact ih hc

theorem saveCampaign_comp (cs : List Campaign) (c1 c2 : Campaign)
    (hid : c2.id = c1.id) :
    saveCampaign (saveCampaign cs c1) c2 = saveCampaign cs c2 := by
  induction cs with
  | nil => rfl
  | cons v t ih =>
    simp only [saveCampaign, List.map_cons] at ih ⊢
    by_cases hv : (v.id == c1.id) = true
    · have h1 : (c1.id == c2.id) = true := by rw [hid]; simp
      have h2 : (v.id == c2.id) = true := by rw [hid]; exact hv
      rw [if_pos hv, if_pos h1, if_pos h2, ih]
    · have h2 : ¬((v.id == c2.id) = true) := by rw [hid]; exact hv
      rw [if_neg hv, if_neg h2, ih]

theorem find_append_of_none {α : Type} (p : α → Bool) (l1 l2 : List α)
    (h : l1.find? p = none) : (l1 ++ l2).find? p = l2.find? p := by
  induction l1 with
  | nil => simp
  | cons v t ih =>
    cases hv : p v with
    | true =>
      rw [find_cons_true p v t hv] at h
      exact absurd h (by simp)
    | false =>
      rw [find_cons_false p v t hv] at h
      rw [List.cons_append, find_cons_false p v _ hv]
      exact ih h

theorem appendActionTo_append_of_none (ps : List Participant) (uid : Nat)
    (acts : List ActionRecord) (rec : ActionRecord)
    (h : ps.find? (fun p : Participant => p.userId == uid) = none) :
    appendActionTo (ps ++ [(⟨uid, acts⟩ : Participant)]) uid rec
      = ps ++ [(⟨uid, acts ++ [rec]⟩ : Participant)] := by
  induction ps with
  | nil => simp [appendActionTo]
  | cons v t ih =>
    cases hv : (v.userId == uid) with
    | true =>
      rw [find_cons_true (fun p : Participant => p.userId == uid) v t hv] at h
      exact absurd h (by simp)
    | false =>
      rw [find_cons_false (fun p : Participant => p.userId == uid) v t hv] at h
      rw [List.cons_append, appendActionTo, if_neg (by rw [hv]; simp), ih h,
        List.cons_append]

theorem find_appendActionTo (ps : List Participant) (uid : Nat)
    (rec : ActionRecord) (pt : Participant)
    (h : ps.find? (fun p : Participant => p.userId == uid) = some pt) :
    (appendActionTo ps uid rec).find? (fun p : Participant => p.userId == uid)
      = some { pt with actions := pt.actions ++ [rec] } := by
  induction ps with
  | nil => simp [List.find?] at h
  | cons v t ih =>
    cases hv : (v.userId == uid) with
    | true =>
      rw [find_cons_true (fun p : Participant => p.userId == uid) v t hv] at h
      have hvpt : v = pt := Option.some.inj h
      subst hvpt
      rw [appendActionTo, if_pos hv]
      exact find_cons_true (fun p : Participant => p.userId == uid) _ _ hv
    | false =>
      rw [find_cons_false (fun p : Participant => p.userId == uid) v t hv] at h
      rw [appendActionTo, if_neg (by rw [hv]; simp)]
      rw [find_cons_false (fun p : Participant => p.userId == uid) v _ hv]
      exact ih h

theorem countActions_append (uid : Nat) (acts : List ActionRecord)
    (rec : ActionRecord) (a : String) (h : rec.actionType = a) :
    countActions ⟨uid, acts ++ [rec]⟩ a = countActions ⟨uid, acts⟩ a + 1 := by
  simp [countActions, List.filter_append, h]

theorem countActions_replicate (uid : Nat) (k : Nat) (rec : ActionRecord)
    (a : String) (h : rec.actionType = a) :
    countActions ⟨uid, List.replicate k rec⟩ a = k := by
  simp [countActions, List.filter_replicate, h]

theorem countRewards_append (u : User) (cid : Nat) (addr : String) (e : RewardEntry)
    (h1 : e.campaignId = cid) (h2 : e.token.address = addr) :
    countRewards { u with rewardsEarned := u.rewardsEarned ++ [e] } cid addr
      = countRewards u cid addr + 1 := by
  simp [countRewards, List.filter_append, h1, h2]

/-! ## Shared lemmas about the verifier -/

theorem verifyStream_verified (u p w : String) (t : Nat) :
    (verifyStream u p w t).verified = true := by
  simp only [verifyStream]
  split
  · rfl
  · split <;> rfl

theorem verifyShare_verified (u p w : String) (t : Nat) :
    (verifyShare u p w t).verified = true := by
  simp only [verifyShare]
  split <;> rfl

theorem verifyFollow_verified (u p w : String) (t : Nat) :
    (verifyFollow u p w t).verified = true := by
  simp only [verifyFollow]
  split
  · rfl
  · split <;> rfl

theorem verifyLike_verified (u p w : String) (t : Nat) :
    (verifyLike u p w t).verified = true := by
  simp only [verifyLike]
  split <;> rfl

theorem verifyComment_verified (u p w : String) (t : Nat) :
    (verifyComment u p w t).verified = true := by
  simp only [verifyComment]
  split <;> rfl

/-- For a recognized action kind, verifyAction returns a result and that result
has verified = true. -/
theorem verifyAction_ok (a u p w : String) (t : Nat) (ha : a ∈ actionKinds) :
    ∃ r, verifyAction a u p w t = Except.ok r ∧ r.verified = true := by
  simp only [actionKinds, List.mem_cons, List.not_mem_nil, or_false] at ha
  rcases ha with rfl | rfl | rfl | rfl | rfl
  · exact ⟨_, by simp [verifyAction], verifyStream_verified u p w t⟩
  · exact ⟨_, by simp [verifyAction], verifyShare_verified u p w t⟩
  · exact ⟨_, by simp [verifyAction], verifyFollow_verified u p w t⟩
  · exact ⟨_, by simp [verifyAction], verifyLike_verified u p w t⟩
  · exact ⟨_, by simp [verifyAction], verifyComment_verified u p w t⟩

/-- For an unrecognized action kind, verifyAction throws. -/
theorem verifyAction_err (a u p w : String) (t : Nat) (ha : a ∉ actionKinds) :
    verifyAction a u p w t = Except.error ("Unsupported action type: " ++ a) := by
  simp only [actionKinds, List.mem_cons, List.not_mem_nil, or_false] at ha
  push_neg at ha
  obtain ⟨h1, h2, h3, h4, h5⟩ := ha
  simp [verifyAction, h1, h2, h3, h4, h5]

/-! ## Characterization of participateInCampaign -/

/-- Successful participation of a fan that already has a Participant entry:
the campaign is saved with one ActionRecord appended to that entry and the
users are untouched. -/
theorem participate_existing
    (st : St) (fanId cid : Nat) (a proof : String) (now : Nat)
    (fan : User) (cg : Campaign) (rule : RewardRule) (vr : VerificationResult)
    (pt : Participant)
    (hu : findUser st.users fanId = some fan) (hrole : fan.role = "fan")
    (hc : findCampaign st.campaigns cid = some cg) (hst : cg.status = "active")
    (hd1 : cg.startDate ≤ now) (hd2 : now ≤ cg.endDate)
    (hr : findRewardRule cg a = some rule)
    (hv : verifyAction a cg.contentUrl proof fan.walletAddress now = Except.ok vr)
    (hvv : vr.verified = true)
    (hp : findParticipant cg fanId = some pt)
    (hcap : ¬(maxClaimsTruthy rule.maxClaims = true ∧
              rule.maxClaims.getD 0 ≤ countActions pt a)) :
    participateInCampaign st fanId cid a proof now
      = (⟨st.users,
          saveCampaign st.campaigns
            { cg with participants :=
                appendActionTo cg.participants fanId ⟨a, now, vr.proofHash⟩ }⟩,
         Except.ok ⟨vr, rule.rewardAmount, rule.token⟩) := by
  simp only [participateInCampaign, hu, hc, hr, hp, hv]
  rw [if_neg (by rw [hrole]; simp)]
  rw [if_neg (by rw [hst]; simp)]
  rw [if_neg (by omega)]
  rw [if_neg (by rw [hvv]; simp)]
  rw [if_neg hcap]

/-- Successful participation of a fresh fan: a new Participant entry is
appended at the end of the participant list with the single new ActionRecord,
and the fan's campaignsParticipated is updated.  No cap hypothesis is needed:
a fresh participant has zero prior actions, so a truthy cap cannot be hit. -/
theorem participate_fresh
    (st : St) (fanId cid : Nat) (a proof : String) (now : Nat)
    (fan : User) (cg : Campaign) (rule : RewardRule) (vr : VerificationResult)
    (hu : findUser st.users fanId = some fan) (hrole : fan.role = "fan")
    (hc : findCampaign st.campaigns cid = some cg) (hst : cg.status = "active")
    (hd1 : cg.startDate ≤ now) (hd2 : now ≤ cg.endDate)
    (hr : findRewardRule cg a = some rule)
    (hv : verifyAction a cg.contentUrl proof fan.walletAddress now = Except.ok vr)
    (hvv : vr.verified = true)
    (hp : findParticipant cg fanId = none) :
    participateInCampaign st fanId cid a proof now
      = (stStep st fanId cid cg [⟨a, now, vr.proofHash⟩],
         Except.ok ⟨vr, rule.rewardAmount, rule.token⟩) := by
  simp only [participateInCampaign, hu, hc, hr, hp, hv]
  rw [if_neg (by rw [hrole]; simp)]
  rw [if_neg (by rw [hst]; simp)]
  rw [if_neg (by omega)]
  rw [if_neg (by rw [hvv]; simp)]
  rw [if_neg (by
    rintro ⟨h1, h2⟩
    cases hm : rule.maxClaims with
    | none => rw [hm] at h1; exact absurd h1 (by simp [maxClaimsTruthy])
    | some n =>
      rw [hm] at h1 h2
      simp [maxClaimsTruthy] at h1
      simp [countActions] at h2
      omega)]
  have hp2 : cg.participants.find? (fun p : Participant => p.userId == fanId) = none := hp
  rw [appendActionTo_append_of_none cg.participants fanId [] _ hp2]
  rw [List.nil_append]
  rfl

/-- Participation of a fan whose action count for the requested kind has
reached a truthy cap: MaxClaimsReached and the whole state is unchanged. -/
theorem participate_capped
    (st : St) (fanId cid : Nat) (a proof : String) (now : Nat)
    (fan : User) (cg : Campaign) (rule : RewardRule) (vr : VerificationResult)
    (pt : Participant)
    (hu : findUser st.users fanId = some fan) (hrole : fan.role = "fan")
    (hc : findCampaign st.campaigns cid = some cg) (hst : cg.status = "active")
    (hd1 : cg.startDate ≤ now) (hd2 : now ≤ cg.endDate)
    (hr : findRewardRule cg a = some rule)
    (hv : verifyAction a cg.contentUrl proof fan.walletAddress now = Except.ok vr)
    (hvv : vr.verified = true)
    (hp : findParticipant cg fanId = some pt)
    (hcap : maxClaimsTruthy rule.maxClaims = true ∧
            rule.maxClaims.getD 0 ≤ countActions pt a) :
    participateInCampaign st fanId cid a proof now
      = (st, Except.error (AppErr.maxClaimsReached (rule.maxClaims.getD 0) a)) := by
  simp only [participateInCampaign, hu, hc, hr, hp, hv]
  rw [if_neg (by rw [hrole]; simp)]
  rw [if_neg (by rw [hst]; simp)]
  rw [if_neg (by omega)]
  rw [if_neg (by rw [hvv]; simp)]
  rw [if_pos hcap]

/-- A further successful participation from the state reached by a fresh fan's
earlier calls: the trailing Participant entry gains one more ActionRecord. -/
theorem participate_on_stStep
    (st : St) (fanId cid : Nat) (a proof : String) (now : Nat)
    (fan : User) (cg : Campaign) (rule : RewardRule) (vr : VerificationResult)
    (recs : List ActionRecord)
    (hu : findUser st.users fanId = some fan) (hrole : fan.role = "fan")
    (hc : findCampaign st.campaigns cid = some cg) (hst : cg.status = "active")
    (hd1 : cg.startDate ≤ now) (hd2 : now ≤ cg.endDate)
    (hr : findRewardRule cg a = some rule)
    (hv : verifyAction a cg.contentUrl proof fan.walletAddress now = Except.ok vr)
    (hvv : vr.verified = true)
    (hp : findParticipant cg fanId = none)
    (hcap : ¬(maxClaimsTruthy rule.maxClaims = true ∧
              rule.maxClaims.getD 0 ≤ countActions ⟨fanId, recs⟩ a)) :
    participateInCampaign (stStep st fanId cid cg recs) fanId cid a proof now
      = (stStep st fanId cid cg (recs ++ [⟨a, now, vr.proofHash⟩]),
         Except.ok ⟨vr, rule.rewardAmount, rule.token⟩) := by
  have hp2 : cg.participants.find? (fun p : Participant => p.userId == fanId) = none := hp
  have hu2 : findUser (stStep st fanId cid cg recs).users fanId
      = some { fan with campaignsParticipated := addToSet fan.campaignsParticipated cid } :=
    findUser_update st.users fanId _ fan hu (fun x => rfl)
  have hsave : findCampaign (stStep st fanId cid cg recs).campaigns cid
      = some { cg with participants := cg.participants ++ [(⟨fanId, recs⟩ : Participant)] } :=
    findCampaign_save st.campaigns cid cg _ hc rfl
  have hpart : findParticipant
      { cg with participants := cg.participants ++ [(⟨fanId, recs⟩ : Participant)] } fanId
      = some (⟨fanId, recs⟩ : Participant) := by
    show (cg.participants ++ [(⟨fanId, recs⟩ : Participant)]).find?
        (fun p : Participant => p.userId == fanId) = _
    rw [find_append_of_none _ _ _ hp2]
    exact find_cons_true _ _ _ (by simp)
  have main := participate_existing (stStep st fanId cid cg recs) fanId cid a proof now
      { fan with campaignsParticipated := addToSet fan.campaignsParticipated cid }
      { cg with participants := cg.participants ++ [(⟨fanId, recs⟩ : Participant)] }
      rule vr (⟨fanId, recs⟩ : Participant)
      hu2 hrole hsave hst hd1 hd2 hr hv hvv hpart hcap
  rw [main]
  simp only [stStep]
  rw [appendActionTo_append_of_none cg.participants fanId recs _ hp2]
  rw [saveCampaign_comp st.campaigns
      { cg with participants := cg.participants ++ [(⟨fanId, recs⟩ : Participant)] }
      { cg with participants :=
          cg.participants ++ [(⟨fanId, recs ++ [⟨a, now, vr.proofHash⟩]⟩ : Participant)] }
      rfl]

/-- Participation from the stStep state when the trailing entry's action count
has reached a truthy cap: MaxClaimsReached, state unchanged. -/
theorem participate_on_stStep_capped
    (st : St) (fanId cid : Nat) (a proof : String) (now : Nat)
    (fan : User) (cg : Campaign) (rule : RewardRule) (vr : VerificationResult)
    (recs : List ActionRecord)
    (hu : findUser st.users fanId = some fan) (hrole : fan.role = "fan")
    (hc : findCampaign st.campaigns cid = some cg) (hst : cg.status = "active")
    (hd1 : cg.startDate ≤ now) (hd2 : now ≤ cg.endDate)
    (hr : findRewardRule cg a = some rule)
    (hv : verifyAction a cg.contentUrl proof fan.walletAddress now = Except.ok vr)
    (hvv : vr.verified = true)
    (hp : findParticipant cg fanId = none)
    (hcap : maxClaimsTruthy rule.maxClaims = true ∧
            rule.maxClaims.getD 0 ≤ countActions ⟨fanId, recs⟩ a) :
    participateInCampaign (stStep st fanId cid cg recs) fanId cid a proof now
      = (stStep st fanId cid cg recs,
         Except.error (AppErr.maxClaimsReached (rule.maxClaims.getD 0) a)) := by
  have hp2 : cg.participants.find? (fun p : Participant => p.userId == fanId) = none := hp
  have hu2 : findUser (stStep st fanId cid cg recs).users fanId
      = some { fan with campaignsParticipated := addToSet fan.campaignsParticipated cid } :=
    findUser_update st.users fanId _ fan hu (fun x => rfl)
  have hsave : findCampaign (stStep st fanId cid cg recs).campaigns cid
      = some { cg with participants := cg.participants ++ [(⟨fanId, recs⟩ : Participant)] } :=
    findCampaign_save st.campaigns cid cg _ hc rfl
  have hpart : findParticipant
      { cg with participants := cg.participants ++ [(⟨fanId, recs⟩ : Participant)] } fanId
      = some (⟨fanId, recs⟩ : Participant) := by
    show (cg.participants ++ [(⟨fanId, recs⟩ : Participant)]).find?
        (fun p : Participant => p.userId == fanId) = _
    rw [find_append_of_none _ _ _ hp2]
    exact find_cons_true _ _ _ (by simp)
  exact participate_capped (stStep st fanId cid cg recs) fanId cid a proof now
      { fan with campaignsParticipated := addToSet fan.campaignsParticipated cid }
      { cg with participants := cg.participants ++ [(⟨fanId, recs⟩ : Participant)] }
      rule vr (⟨fanId, recs⟩ : Participant)
      hu2 hrole hsave hst hd1 hd2 hr hv hvv hpart hcap

/-- Iterating the same participation request j more times from the state in
which the fan's trailing Participant entry already holds k identical records:
all succeed while k + j stays within the cap N. -/
theorem participateRepeat_from
    (st : St) (fanId cid : Nat) (a proof : String) (now : Nat) (N : Nat)
    (fan : User) (cg : Campaign) (rule : RewardRule) (vr : VerificationResult)
    (hu : findUser st.users fanId = some fan) (hrole : fan.role = "fan")
    (hc : findCampaign st.campaigns cid = some cg) (hst : cg.status = "active")
    (hd1 : cg.startDate ≤ now) (hd2 : now ≤ cg.endDate)
    (hr : findRewardRule cg a = some rule) (hmax : rule.maxClaims = some N)
    (hv : verifyAction a cg.contentUrl proof fan.walletAddress now = Except.ok vr)
    (hvv : vr.verified = true)
    (hp : findParticipant cg fanId = none) :
    ∀ j k, k + j ≤ N →
      participateRepeat j
          (stStep st fanId cid cg (List.replicate k ⟨a, now, vr.proofHash⟩))
          fanId cid a proof now
        = (stStep st fanId cid cg (List.replicate (k + j) ⟨a, now, vr.proofHash⟩), true) := by
  intro j
  induction j with
  | zero => intro k hk; simp [participateRepeat]
  | succ m ih =>
    intro k hk
    have hstep := participate_on_stStep st fanId cid a proof now fan cg rule vr
        (List.replicate k ⟨a, now, vr.proofHash⟩) hu hrole hc hst hd1 hd2 hr hv hvv hp
        (by
          rintro ⟨h1, h2⟩
          rw [hmax] at h1 h2
          rw [countActions_replicate fanId k ⟨a, now, vr.proofHash⟩ a rfl] at h2
          simp [Option.getD] at h2
          omega)
    simp only [participateRepeat]
    rw [hstep]
    rw [← List.replicate_succ']
    have hkm : (k + 1) + m = k + (m + 1) := by omega
    have hih := ih (k + 1) (by omega)
    rw [hkm] at hih
    rw [hih]
    rfl

/-! ## Claim theorems -/

/-- C2: the proof fingerprint is claimed to be a pure function of the proof
content, but generateProofHash folds Date.now() into the hashed bytes: the same
proof "p" hashed at two adjacent milliseconds yields two different fingerprint
strings. -/
theorem generateProofHash_time_dependent :
    generateProofHash "p" 1700000000000 ≠ generateProofHash "p" 1700000000001 := by
  decide

/-- C1: in the spec-section-8 scenario (active in-window campaign rewarding
"stream"), recordParticipation succeeds, but the subsequent
claimReward with the very same proof is rejected with ActionNotVerified and
credits nothing, because the fingerprint recomputed at claim time (one
millisecond later) differs from the stored one. -/
theorem participate_then_claim_rejected :
    (participateInCampaign demoSt 2 10 "stream" "p" 1700000000000).2.isOk = true ∧
    (claimReward (participateInCampaign demoSt 2 10 "stream" "p" 1700000000000).1
        2 10 "stream" "p" 1700000000001).2 = Except.error AppErr.actionNotVerified ∧
    (claimReward (participateInCampaign demoSt 2 10 "stream" "p" 1700000000000).1
        2 10 "stream" "p" 1700000000001).1 =
      (participateInCampaign demoSt 2 10 "stream" "p" 1700000000000).1 :=
  ⟨rfl, rfl, rfl⟩

/-- C7: verifyAction succeeds with verified = true for every one of the five
recognized action kinds (any content URL and proof), and fails by throwing
exactly when the action kind is unrecognized — so the VerificationFailed
branches of the controllers are unreachable. -/
theorem verifyAction_verified_iff_supported (a u p w : String) (t : Nat) :
    (a ∈ actionKinds → ∃ r, verifyAction a u p w t = Except.ok r ∧ r.verified = true) ∧
    (a ∉ actionKinds → verifyAction a u p w t = Except.error ("Unsupported action type: " ++ a)) :=
  ⟨verifyAction_ok a u p w t, verifyAction_err a u p w t⟩

/-- C3: for a campaign whose reward rule for action a caps maxClaims at N with
N ≥ 1, a fresh fan's first N recordParticipation(a) calls all succeed, and the
(N+1)th call fails MaxClaimsReached leaving the whole state (in particular the
campaign's ActionRecords) unchanged. -/
theorem maxClaims_cap_enforced
    (st : St) (fanId cid : Nat) (a proof : String) (now : Nat) (N : Nat)
    (fan : User) (cg : Campaign) (rule : RewardRule)
    (hu : findUser st.users fanId = some fan) (hrole : fan.role = "fan")
    (hc : findCampaign st.campaigns cid = some cg) (hst : cg.status = "active")
    (hd1 : cg.startDate ≤ now) (hd2 : now ≤ cg.endDate)
    (hr : findRewardRule cg a = some rule) (hmax : rule.maxClaims = some N)
    (hN : 1 ≤ N) (ha : a ∈ actionKinds)
    (hp : findParticipant cg fanId = none) :
    (participateRepeat N st fanId cid a proof now).2 = true ∧
    (participateInCampaign (participateRepeat N st fanId cid a proof now).1
        fanId cid a proof now).2 = Except.error (AppErr.maxClaimsReached N a) ∧
    (participateInCampaign (participateRepeat N st fanId cid a proof now).1
        fanId cid a proof now).1 = (participateRepeat N st fanId cid a proof now).1 := by
  obtain ⟨M, rfl⟩ : ∃ M, N = M + 1 := ⟨N - 1, by omega⟩
  obtain ⟨vr, hv, hvv⟩ := verifyAction_ok a cg.contentUrl proof fan.walletAddress now ha
  have h1 := participate_fresh st fanId cid a proof now fan cg rule vr
      hu hrole hc hst hd1 hd2 hr hv hvv hp
  have hrep := participateRepeat_from st fanId cid a proof now (M + 1) fan cg rule vr
      hu hrole hc hst hd1 hd2 hr hmax hv hvv hp M 1 (by omega)
  rw [show 1 + M = M + 1 by omega] at hrep
  rw [List.replicate_one] at hrep
  have hrepN : participateRepeat (M + 1) st fanId cid a proof now
      = (stStep st fanId cid cg (List.replicate (M + 1) ⟨a, now, vr.proofHash⟩), true) := by
    simp only [participateRepeat]
    rw [h1, hrep]
    rfl
  have hcapped := participate_on_stStep_capped st fanId cid a proof now fan cg rule vr
      (List.replicate (M + 1) ⟨a, now, vr.proofHash⟩) hu hrole hc hst hd1 hd2 hr hv hvv hp
      (by
        rw [hmax]
        refine ⟨by simp [maxClaimsTruthy], ?_⟩
        rw [countActions_replicate fanId (M + 1) ⟨a, now, vr.proofHash⟩ a rfl]
        simp)
  rw [hmax] at hcapped
  simp only [Option.getD_some] at hcapped
  exact ⟨by rw [hrepN], by rw [hrepN, hcapped], by rw [hrepN, hcapped]⟩

/-- Witness for C3: the capped demo campaign (maxClaims = 2 for "stream"),
fresh fan 2: two calls succeed, the third fails MaxClaimsReached and changes
nothing. -/
theorem maxClaims_cap_enforced_witness :
    (participateRepeat 2 demoStCap2 2 11 "stream" "p" 1700000000000).2 = true ∧
    (participateInCampaign (participateRepeat 2 demoStCap2 2 11 "stream" "p" 1700000000000).1
        2 11 "stream" "p" 1700000000000).2
      = Except.error (AppErr.maxClaimsReached 2 "stream") ∧
    (participateInCampaign (participateRepeat 2 demoStCap2 2 11 "stream" "p" 1700000000000).1
        2 11 "stream" "p" 1700000000000).1
      = (participateRepeat 2 demoStCap2 2 11 "stream" "p" 1700000000000).1 :=
  maxClaims_cap_enforced demoStCap2 2 11 "stream" "p" 1700000000000 2 demoFan
    demoCampaignCap2 ⟨"stream", 1 / 2, usdcTok, some 2⟩
    rfl rfl rfl rfl (by decide) (by decide) rfl rfl (by decide) (by decide) rfl

/-- C8: recordParticipation is additive, not idempotent.  For a fresh fan
under the cap, two successive successful calls (same fan, campaign, action)
append two separate ActionRecords — stamped with each call's time — to one and
the same single Participant entry, and the at-most-one-Participant-per-user
invariant is preserved. -/
theorem participation_additive
    (st : St) (fanId cid : Nat) (a proof1 proof2 : String) (now1 now2 : Nat)
    (fan : User) (cg : Campaign) (rule : RewardRule)
    (hu : findUser st.users fanId = some fan) (hrole : fan.role = "fan")
    (hc : findCampaign st.campaigns cid = some cg) (hst : cg.status = "active")
    (hd1 : cg.startDate ≤ now1) (hd2 : now1 ≤ cg.endDate)
    (hd3 : cg.startDate ≤ now2) (hd4 : now2 ≤ cg.endDate)
    (hr : findRewardRule cg a = some rule) (ha : a ∈ actionKinds)
    (hp : findParticipant cg fanId = none)
    (hcap : maxClaimsTruthy rule.maxClaims = true → 2 ≤ rule.maxClaims.getD 0)
    (hinv : ∀ uid : Nat,
      (cg.participants.filter (fun p : Participant => p.userId == uid)).length ≤ 1) :
    (participateInCampaign st fanId cid a proof1 now1).2.isOk = true ∧
    (participateInCampaign (participateInCampaign st fanId cid a proof1 now1).1
        fanId cid a proof2 now2).2.isOk = true ∧
    ∃ rec1 rec2 : ActionRecord, rec1.actionType = a ∧ rec2.actionType = a ∧
      rec1.verifiedAt = now1 ∧ rec2.verifiedAt = now2 ∧
      ∀ cg2, findCampaign (participateInCampaign
            (participateInCampaign st fanId cid a proof1 now1).1
            fanId cid a proof2 now2).1.campaigns cid = some cg2 →
        cg2.participants = cg.participants ++ [⟨fanId, [rec1, rec2]⟩] ∧
        ∀ uid : Nat,
          (cg2.participants.filter (fun p : Participant => p.userId == uid)).length ≤ 1 := by
  have hp2 : cg.participants.find? (fun p : Participant => p.userId == fanId) = none := hp
  obtain ⟨vr1, hv1, hvv1⟩ := verifyAction_ok a cg.contentUrl proof1 fan.walletAddress now1 ha
  obtain ⟨vr2, hv2, hvv2⟩ := verifyAction_ok a cg.contentUrl proof2 fan.walletAddress now2 ha
  have h1 := participate_fresh st fanId cid a proof1 now1 fan cg rule vr1
      hu hrole hc hst hd1 hd2 hr hv1 hvv1 hp
  have h1p : (participateInCampaign st fanId cid a proof1 now1).1
      = stStep st fanId cid cg [⟨a, now1, vr1.proofHash⟩] := by rw [h1]
  have h2 := participate_on_stStep st fanId cid a proof2 now2 fan cg rule vr2
      [⟨a, now1, vr1.proofHash⟩] hu hrole hc hst hd3 hd4 hr hv2 hvv2 hp
      (by
        rintro ⟨hb1, hb2⟩
        have hge := hcap hb1
        have hcnt : countActions ⟨fanId, [⟨a, now1, vr1.proofHash⟩]⟩ a = 1 := by
          simp [countActions]
        omega)
  refine ⟨by rw [h1]; rfl, by rw [h1p, h2]; rfl, ?_⟩
  refine ⟨⟨a, now1, vr1.proofHash⟩, ⟨a, now2, vr2.proofHash⟩, rfl, rfl, rfl, rfl, ?_⟩
  intro cg2 hcg2
  rw [h1p, h2] at hcg2
  have hfind := findCampaign_save st.campaigns cid cg
      ({ cg with participants := cg.participants ++
          [(⟨fanId, [⟨a, now1, vr1.proofHash⟩, ⟨a, now2, vr2.proofHash⟩]⟩ : Participant)] })
      hc rfl
  have hcg3 : findCampaign (saveCampaign st.campaigns
      { cg with participants := cg.participants ++
          [(⟨fanId, [⟨a, now1, vr1.proofHash⟩, ⟨a, now2, vr2.proofHash⟩]⟩ : Participant)] }) cid
      = some cg2 := hcg2
  rw [hfind] at hcg3
  obtain rfl : cg2 = _ := (Option.some.inj hcg3).symm
  refine ⟨rfl, ?_⟩
  intro uid
  show ((cg.participants ++
      [(⟨fanId, [⟨a, now1, vr1.proofHash⟩, ⟨a, now2, vr2.proofHash⟩]⟩ : Participant)]).filter
        (fun p : Participant => p.userId == uid)).length ≤ 1
  rw [List.filter_append, List.length_append]
  by_cases huid : fanId = uid
  · subst huid
    have hall := List.find?_eq_none.mp hp2
    have hps : (cg.participants.filter (fun p : Participant => p.userId == fanId)).length = 0 := by
      rw [List.length_eq_zero]
      exact List.filter_eq_nil_iff.mpr hall
    rw [hps]
    have hsingle : ((List.filter (fun p : Participant => p.userId == fanId)
        [(⟨fanId, [⟨a, now1, vr1.proofHash⟩, ⟨a, now2, vr2.proofHash⟩]⟩ : Participant)])).length ≤ 1 := by
      simp
    omega
  · have hq0 : ((List.filter (fun p : Participant => p.userId == uid)
        [(⟨fanId, [⟨a, now1, vr1.proofHash⟩, ⟨a, now2, vr2.proofHash⟩]⟩ : Participant)])).length = 0 := by
      simp [huid]
    rw [hq0]
    have := hinv uid
    omega

/-- Witness for C8: demo campaign, fresh fan 2, two participations one
millisecond apart both succeed and yield one participant entry with two
records. -/
theorem participation_additive_witness :
    (participateInCampaign demoSt 2 10 "stream" "p" 1700000000000).2.isOk = true ∧
    (participateInCampaign (participateInCampaign demoSt 2 10 "stream" "p" 1700000000000).1
        2 10 "stream" "q" 1700000000001).2.isOk = true ∧
    ∃ rec1 rec2 : ActionRecord, rec1.actionType = "stream" ∧ rec2.actionType = "stream" ∧
      rec1.verifiedAt = 1700000000000 ∧ rec2.verifiedAt = 1700000000001 ∧
      ∀ cg2, findCampaign (participateInCampaign
            (participateInCampaign demoSt 2 10 "stream" "p" 1700000000000).1
            2 10 "stream" "q" 1700000000001).1.campaigns 10 = some cg2 →
        cg2.participants = demoCampaign.participants ++ [⟨2, [rec1, rec2]⟩] ∧
        ∀ uid : Nat,
          (cg2.participants.filter (fun p : Participant => p.userId == uid)).length ≤ 1 :=
  participation_additive demoSt 2 10 "stream" "p" "q" 1700000000000 1700000000001
    demoFan demoCampaign ⟨"stream", 1 / 2, usdcTok, some 10⟩
    rfl rfl rfl rfl (by decide) (by decide) (by decide) (by decide) rfl (by decide) rfl
    (by intro h; simp) (by intro uid; simp [demoCampaign])

/-- C5 counterexample: on a campaign whose "stream" rule has maxClaims = 0,
a participation attempt does NOT fail MaxClaimsReached — it succeeds and
appends an ActionRecord, because the JS truthiness check skips a zero cap. -/
theorem maxClaimsZero_participation_succeeds :
    (participateInCampaign demoStCap0 2 12 "stream" "p" 1700000000000).2.isOk = true ∧
    (findCampaign (participateInCampaign demoStCap0 2 12 "stream" "p" 1700000000000).1.campaigns
        12).map (fun c => c.participants.map (fun p => (p.userId, p.actions.length)))
      = some [(2, 1)] :=
  ⟨rfl, rfl⟩

/-- C5 amended: maxClaims = 0 behaves exactly like an unset cap (unlimited):
under the other preconditions every recordParticipation(a) attempt succeeds and
appends one more ActionRecord of kind a for the fan, whatever the current
count. -/
theorem maxClaimsZero_unlimited
    (st : St) (fanId cid : Nat) (a proof : String) (now : Nat)
    (fan : User) (cg : Campaign) (rule : RewardRule)
    (hu : findUser st.users fanId = some fan) (hrole : fan.role = "fan")
    (hc : findCampaign st.campaigns cid = some cg) (hst : cg.status = "active")
    (hd1 : cg.startDate ≤ now) (hd2 : now ≤ cg.endDate)
    (hr : findRewardRule cg a = some rule) (hmax : rule.maxClaims = some 0)
    (ha : a ∈ actionKinds) :
    (participateInCampaign st fanId cid a proof now).2.isOk = true ∧
    ∀ cg2, findCampaign (participateInCampaign st fanId cid a proof now).1.campaigns cid
        = some cg2 →
      ∃ pt2, findParticipant cg2 fanId = some pt2 ∧
        countActions pt2 a
          = (match findParticipant cg fanId with
             | some pt => countActions pt a
             | none => 0) + 1 := by
  obtain ⟨vr, hv, hvv⟩ := verifyAction_ok a cg.contentUrl proof fan.walletAddress now ha
  cases hpc : findParticipant cg fanId with
  | none =>
    have hpc2 : cg.participants.find? (fun p : Participant => p.userId == fanId) = none := hpc
    have h1 := participate_fresh st fanId cid a proof now fan cg rule vr
        hu hrole hc hst hd1 hd2 hr hv hvv hpc
    refine ⟨by rw [h1]; rfl, ?_⟩
    intro cg2 hcg2
    rw [h1] at hcg2
    have hfind := findCampaign_save st.campaigns cid cg
        ({ cg with participants := cg.participants ++
            [(⟨fanId, [⟨a, now, vr.proofHash⟩]⟩ : Participant)] }) hc rfl
    have hcg3 : findCampaign (saveCampaign st.campaigns
        { cg with participants := cg.participants ++
            [(⟨fanId, [⟨a, now, vr.proofHash⟩]⟩ : Participant)] }) cid = some cg2 := hcg2
    rw [hfind] at hcg3
    obtain rfl : cg2 = _ := (Option.some.inj hcg3).symm
    refine ⟨⟨fanId, [⟨a, now, vr.proofHash⟩]⟩, ?_, ?_⟩
    · show (cg.participants ++ [(⟨fanId, [⟨a, now, vr.proofHash⟩]⟩ : Participant)]).find?
          (fun p : Participant => p.userId == fanId) = _
      rw [find_append_of_none _ _ _ hpc2]
      exact find_cons_true _ _ _ (by simp)
    · simp [countActions]
  | some pt =>
    have hpc2 : cg.participants.find? (fun p : Participant => p.userId == fanId) = some pt := hpc
    have hcap : ¬(maxClaimsTruthy rule.maxClaims = true ∧
        rule.maxClaims.getD 0 ≤ countActions pt a) := by
      rintro ⟨hb1, _⟩
      rw [hmax] at hb1
      simp [maxClaimsTruthy] at hb1
    have h1 := participate_existing st fanId cid a proof now fan cg rule vr pt
        hu hrole hc hst hd1 hd2 hr hv hvv hpc hcap
    refine ⟨by rw [h1]; rfl, ?_⟩
    intro cg2 hcg2
    rw [h1] at hcg2
    have hfind := findCampaign_save st.campaigns cid cg
        ({ cg with participants :=
            appendActionTo cg.participants fanId ⟨a, now, vr.proofHash⟩ }) hc rfl
    have hcg3 : findCampaign (saveCampaign st.campaigns
        { cg with participants :=
            appendActionTo cg.participants fanId ⟨a, now, vr.proofHash⟩ }) cid
        = some cg2 := hcg2
    rw [hfind] at hcg3
    obtain rfl : cg2 = _ := (Option.some.inj hcg3).symm
    refine ⟨{ pt with actions := pt.actions ++ [⟨a, now, vr.proofHash⟩] }, ?_, ?_⟩
    · show (appendActionTo cg.participants fanId ⟨a, now, vr.proofHash⟩).find?
          (fun p : Participant => p.userId == fanId) = _
      exact find_appendActionTo cg.participants fanId _ pt hpc2
    · exact countActions_append pt.userId pt.actions ⟨a, now, vr.proofHash⟩ a rfl

/-- Witness for the amended C5 on the maxClaims = 0 demo campaign. -/
theorem maxClaimsZero_unlimited_witness :
    (participateInCampaign demoStCap0 2 12 "stream" "p" 1700000000000).2.isOk = true ∧
    ∀ cg2, findCampaign
        (participateInCampaign demoStCap0 2 12 "stream" "p" 1700000000000).1.campaigns 12
        = some cg2 →
      ∃ pt2, findParticipant cg2 2 = some pt2 ∧
        countActions pt2 "stream"
          = (match findParticipant demoCampaignCap0 2 with
             | some pt => countActions pt "stream"
             | none => 0) + 1 :=
  maxClaimsZero_unlimited demoStCap0 2 12 "stream" "p" 1700000000000 demoFan
    demoCampaignCap0 ⟨"stream", 1 / 2, usdcTok, some 0⟩
    rfl rfl rfl rfl (by decide) (by decide) rfl rfl (by decide)

/-- claimReward either leaves the state untouched (any failure) or, when the
cap check passed, appends exactly one RewardEntry for the requested campaign
and rule token to the caller's ledger. -/
theorem claimReward_state_cases
    (st : St) (fanId cid : Nat) (a proof : String) (now : Nat)
    (fan : User) (cg : Campaign) (rule : RewardRule)
    (hu : findUser st.users fanId = some fan)
    (hc : findCampaign st.campaigns cid = some cg)
    (hr : findRewardRule cg a = some rule) :
    (claimReward st fanId cid a proof now).1 = st ∨
    (¬(maxClaimsTruthy rule.maxClaims = true ∧
        rule.maxClaims.getD 0 ≤ countRewards fan cid rule.token.address) ∧
     (claimReward st fanId cid a proof now).1.users
       = updateUserF st.users fanId (fun u => { u with rewardsEarned :=
           u.rewardsEarned ++ [⟨cg.id, rule.rewardAmount, rule.token, now⟩] })) := by
  simp only [claimReward, hu, hc, hr]
  by_cases h1 : fan.role ≠ "fan"
  · rw [if_pos h1]; exact Or.inl rfl
  rw [if_neg h1]
  by_cases h2 : cg.status ≠ "active"
  · rw [if_pos h2]; exact Or.inl rfl
  rw [if_neg h2]
  by_cases h3 : now < cg.startDate ∨ cg.endDate < now
  · rw [if_pos h3]; exact Or.inl rfl
  rw [if_neg h3]
  cases hva : verifyAction a cg.contentUrl proof fan.walletAddress now with
  | error e => exact Or.inl (by simp [hva])
  | ok vr =>
    simp only [hva]
    by_cases h4 : vr.verified = false
    · rw [if_pos h4]; exact Or.inl rfl
    rw [if_neg h4]
    cases hpt : findParticipant cg fanId with
    | none => exact Or.inl (by simp [hpt])
    | some pt =>
      simp only [hpt]
      by_cases h5 : (pt.actions.any
          (fun x => x.actionType == a && x.proof == vr.proofHash)) = false
      · rw [if_pos h5]; exact Or.inl rfl
      rw [if_neg h5]
      by_cases h6 : maxClaimsTruthy rule.maxClaims = true ∧
          rule.maxClaims.getD 0 ≤ countRewards fan cid rule.token.address
      · rw [if_pos h6]; exact Or.inl rfl
      · rw [if_neg h6]
        exact Or.inr ⟨h6, rfl⟩

/-- C4 counterexample: with maxClaims = 0 on the rule (a set value), a claim
succeeds and pushes the matching (campaign, token) reward count to 1 > 0, so
the cap is NOT enforced for the set value zero. -/
theorem maxRewardsZero_claim_succeeds :
    (claimReward demoStCap0Acted 2 13 "stream" "p" 1700000000000).2.isOk = true ∧
    (findUser (claimReward demoStCap0Acted 2 13 "stream" "p" 1700000000000).1.users 2).map
        (fun u => countRewards u 13 usdcTok.address) = some 1 ∧
    (findRewardRule demoCampaignCap0Acted "stream").map RewardRule.maxClaims
      = some (some 0) :=
  ⟨rfl, rfl, rfl⟩

/-- C4 amended (restricted to a positive cap): for a rule with
maxClaims = N ≥ 1, a claimReward call preserves the invariant that the
caller's (campaign, rule-token) reward count is at most N, and an otherwise
valid claim attempted when the count has already reached N fails
MaxRewardsClaimed leaving the whole state unchanged. -/
theorem maxRewards_cap_invariant
    (st : St) (fanId cid : Nat) (a proof : String) (now : Nat) (N : Nat)
    (fan : User) (cg : Campaign) (rule : RewardRule)
    (hu : findUser st.users fanId = some fan)
    (hc : findCampaign st.campaigns cid = some cg)
    (hr : findRewardRule cg a = some rule)
    (hmax : rule.maxClaims = some N) (hN : 1 ≤ N)
    (hcnt : countRewards fan cid rule.token.address ≤ N) :
    (∀ fan2, findUser (claimReward st fanId cid a proof now).1.users fanId = some fan2 →
        countRewards fan2 cid rule.token.address ≤ N) ∧
    (countRewards fan cid rule.token.address = N →
      fan.role = "fan" → cg.status = "active" →
      cg.startDate ≤ now → now ≤ cg.endDate →
      ∀ vr pt, verifyAction a cg.contentUrl proof fan.walletAddress now = Except.ok vr →
        vr.verified = true →
        findParticipant cg fanId = some pt →
        (pt.actions.any (fun x => x.actionType == a && x.proof == vr.proofHash)) = true →
        claimReward st fanId cid a proof now
          = (st, Except.error (AppErr.maxRewardsClaimed N))) := by
  constructor
  · intro fan2 hfan2
    rcases claimReward_state_cases st fanId cid a proof now fan cg rule hu hc hr with
      hsame | ⟨hnc, hupd⟩
    · rw [hsame] at hfan2
      obtain rfl : fan = fan2 := Option.some.inj (hu.symm.trans hfan2)
      exact hcnt
    · have hf := findUser_update st.users fanId
          (fun u => { u with rewardsEarned :=
              u.rewardsEarned ++ [⟨cg.id, rule.rewardAmount, rule.token, now⟩] })
          fan hu (fun x => rfl)
      rw [hupd, hf] at hfan2
      obtain rfl : _ = fan2 := Option.some.inj hfan2
      show countRewards { fan with rewardsEarned :=
          fan.rewardsEarned ++ [⟨cg.id, rule.rewardAmount, rule.token, now⟩] }
          cid rule.token.address ≤ N
      rw [countRewards_append fan cid rule.token.address
          ⟨cg.id, rule.rewardAmount, rule.token, now⟩
          (findCampaign_eq_id st.campaigns cid cg hc) rfl]
      have htr : maxClaimsTruthy rule.maxClaims = true := by
        rw [hmax]; simp [maxClaimsTruthy]; omega
      have hlt : ¬(rule.maxClaims.getD 0 ≤ countRewards fan cid rule.token.address) :=
        fun hle => hnc ⟨htr, hle⟩
      rw [hmax] at hlt
      simp only [Option.getD_some] at hlt
      omega
  · intro hceq hrole hst hd1 hd2 vr pt hv hvv hpt hae
    simp only [claimReward, hu, hc, hr, hpt, hv]
    rw [if_neg (by rw [hrole]; simp)]
    rw [if_neg (by rw [hst]; simp)]
    rw [if_neg (by omega)]
    rw [if_neg (by rw [hvv]; simp)]
    rw [if_neg (by rw [hae]; simp)]
    rw [if_pos ⟨by rw [hmax]; simp [maxClaimsTruthy]; omega,
        by rw [hmax]; simp only [Option.getD_some]; omega⟩]
    rw [hmax]
    rfl

/-- Witness for the amended C4: cap 1 already reached, the claim fails
MaxRewardsClaimed and the state is unchanged. -/
theorem maxRewards_cap_invariant_witness :
    (∀ fan2, findUser (claimReward demoStCap1Acted 2 14 "stream" "p" 1700000000000).1.users 2
        = some fan2 → countRewards fan2 14 usdcTok.address ≤ 1) ∧
    (countRewards demoFanClaimed1 14 usdcTok.address = 1 →
      demoFanClaimed1.role = "fan" → demoCampaignCap1Acted.status = "active" →
      demoCampaignCap1Acted.startDate ≤ 1700000000000 →
      1700000000000 ≤ demoCampaignCap1Acted.endDate →
      ∀ vr pt, verifyAction "stream" demoCampaignCap1Acted.contentUrl "p"
          demoFanClaimed1.walletAddress 1700000000000 = Except.ok vr →
        vr.verified = true →
        findParticipant demoCampaignCap1Acted 2 = some pt →
        (pt.actions.any (fun x => x.actionType == "stream" && x.proof == vr.proofHash)) = true →
        claimReward demoStCap1Acted 2 14 "stream" "p" 1700000000000
          = (demoStCap1Acted, Except.error (AppErr.maxRewardsClaimed 1))) :=
  maxRewards_cap_invariant demoStCap1Acted 2 14 "stream" "p" 1700000000000 1
    demoFanClaimed1 demoCampaignCap1Acted ⟨"stream", 1 / 2, usdcTok, some 1⟩
    rfl rfl rfl rfl (by decide) (by decide)

theorem validateRuleTokens_ok (rules : List RewardRule) :
    validateRuleTokens rules = Except.ok () ↔
      ∀ r ∈ rules, isTokenAllowed r.token.address = true := by
  induction rules with
  | nil => simp [validateRuleTokens]
  | cons r rest ih =>
    by_cases hr : isTokenAllowed r.token.address = false
    · simp only [validateRuleTokens]
      rw [if_pos hr]
      constructor
      · intro h; exact absurd h (by simp)
      · intro h
        have := h r (by simp)
        rw [hr] at this
        exact absurd this (by simp)
    · have hr2 : isTokenAllowed r.token.address = true := by simpa using hr
      simp only [validateRuleTokens]
      rw [if_neg hr, ih]
      constructor
      · intro h s hs
        rcases List.mem_cons.mp hs with rfl | hs2
        · exact hr2
        · exact h s hs2
      · intro h s hs
        exact h s (List.mem_cons_of_mem r hs)

theorem validateRuleTokens_err (rules : List RewardRule) (e : AppErr)
    (h : validateRuleTokens rules = Except.error e) :
    ∃ addr, e = AppErr.tokenNotAllowed addr ∧ isTokenAllowed addr = false ∧
      ∃ r ∈ rules, r.token.address = addr := by
  induction rules with
  | nil => simp [validateRuleTokens] at h
  | cons r rest ih =>
    by_cases hr : isTokenAllowed r.token.address = false
    · simp only [validateRuleTokens] at h
      rw [if_pos hr] at h
      exact ⟨r.token.address, (Except.error.inj h).symm, hr, r, by simp, rfl⟩
    · simp only [validateRuleTokens] at h
      rw [if_neg hr] at h
      obtain ⟨addr, he, hna, s, hs, hsa⟩ := ih h
      exact ⟨addr, he, hna, s, List.mem_cons_of_mem r hs, hsa⟩

theorem validateCampaignTokens_err (bt : Token) (rules : List RewardRule) (e : AppErr)
    (h : validateCampaignTokens bt rules = Except.error e) :
    ∃ addr, e = AppErr.tokenNotAllowed addr ∧ isTokenAllowed addr = false ∧
      (addr = bt.address ∨ ∃ r ∈ rules, r.token.address = addr) := by
  by_cases hb : isTokenAllowed bt.address = false
  · simp only [validateCampaignTokens] at h
    rw [if_pos hb] at h
    exact ⟨bt.address, (Except.error.inj h).symm, hb, Or.inl rfl⟩
  · simp only [validateCampaignTokens] at h
    rw [if_neg hb] at h
    obtain ⟨addr, he, hna, s, hs, hsa⟩ := validateRuleTokens_err rules e h
    exact ⟨addr, he, hna, Or.inr ⟨s, hs, hsa⟩⟩

theorem validateCampaignTokens_ok_iff (bt : Token) (rules : List RewardRule) :
    validateCampaignTokens bt rules = Except.ok () ↔
      (isTokenAllowed bt.address = true ∧
       ∀ r ∈ rules, isTokenAllowed r.token.address = true) := by
  by_cases hb : isTokenAllowed bt.address = false
  · simp only [validateCampaignTokens]
    rw [if_pos hb]
    constructor
    · intro h; exact absurd h (by simp)
    · rintro ⟨h1, _⟩
      rw [hb] at h1
      exact absurd h1 (by simp)
  · have hb2 : isTokenAllowed bt.address = true := by simpa using hb
    simp only [validateCampaignTokens]
    rw [if_neg hb, validateRuleTokens_ok]
    simp [hb2]

/-- C6: when the budget token or any reward-rule token is off the allowlist,
createCampaign (called by a creator with valid dates) fails TokenNotAllowed
naming an offending, not-allowed address drawn from the campaign's tokens, and
the whole store is unchanged: no Campaign persisted, campaignsCreated
untouched. -/
theorem createCampaign_token_atomic
    (st : St) (callerId : Nat) (inp : CampaignInput) (newId now : Nat) (user : User)
    (hu : findUser st.users callerId = some user) (hrole : user.role = "creator")
    (hdates : inp.startDate < inp.endDate)
    (hbad : ¬(isTokenAllowed inp.budgetToken.address = true ∧
              ∀ r ∈ inp.rewardRules, isTokenAllowed r.token.address = true)) :
    (createCampaign st callerId inp newId now).1 = st ∧
    ∃ addr, (createCampaign st callerId inp newId now).2
        = Except.error (AppErr.tokenNotAllowed addr) ∧
      isTokenAllowed addr = false ∧
      (addr = inp.budgetToken.address ∨ ∃ r ∈ inp.rewardRules, r.token.address = addr) := by
  have hval : ∃ e, validateCampaignTokens inp.budgetToken inp.rewardRules
      = Except.error e := by
    cases hv : validateCampaignTokens inp.budgetToken inp.rewardRules with
    | ok u =>
      cases u
      exact absurd ((validateCampaignTokens_ok_iff _ _).mp hv) hbad
    | error e => exact ⟨e, rfl⟩
  obtain ⟨e, he⟩ := hval
  obtain ⟨addr, rfl, hna, hsrc⟩ :=
    validateCampaignTokens_err inp.budgetToken inp.rewardRules e he
  simp only [createCampaign, hu, he]
  rw [if_neg (by rw [hrole]; simp)]
  rw [if_neg (by omega)]
  exact ⟨rfl, addr, rfl, hna, hsrc⟩

/-- Witness for C6: a budget token outside the allowlist is rejected and the
store is unchanged. -/
theorem createCampaign_token_atomic_witness :
    (createCampaign demoSt 1 demoBadInput 99 0).1 = demoSt ∧
    ∃ addr, (createCampaign demoSt 1 demoBadInput 99 0).2
        = Except.error (AppErr.tokenNotAllowed addr) ∧
      isTokenAllowed addr = false ∧
      (addr = demoBadInput.budgetToken.address ∨
        ∃ r ∈ demoBadInput.rewardRules, r.token.address = addr) :=
  createCampaign_token_atomic demoSt 1 demoBadInput 99 0 demoCreator
    rfl rfl (by decide) (by decide)

/-- C9: listing campaigns with the status = "active" filter returns exactly the
stored campaigns whose status is active — a page slice of a sorted
(newest-first) permutation of that subset — with pagination.total the number of
matching campaigns and pages the ceiling of total / limit (characterized by
total ≤ pages * limit < total + limit). -/
theorem listCampaigns_active_correct (st : St) (page limit : Nat)
    (hp : 1 ≤ page) (hl : 1 ≤ limit) (hl2 : limit ≤ 100) :
    (∀ c ∈ (getCampaigns st (some "active") none none none page limit).campaigns,
        c.status = "active") ∧
    List.Sorted createdDesc
      (getCampaigns st (some "active") none none none page limit).campaigns ∧
    (∃ full, List.Perm full (st.campaigns.filter (fun c => c.status == "active")) ∧
       List.Sorted createdDesc full ∧
       (getCampaigns st (some "active") none none none page limit).campaigns
         = (full.drop ((page - 1) * limit)).take limit) ∧
    (getCampaigns st (some "active") none none none page limit).pagination.total
      = (st.campaigns.filter (fun c => c.status == "active")).length ∧
    (getCampaigns st (some "active") none none none page limit).pagination.total
      ≤ (getCampaigns st (some "active") none none none page limit).pagination.pages * limit ∧
    (getCampaigns st (some "active") none none none page limit).pagination.pages * limit
      < (getCampaigns st (some "active") none none none page limit).pagination.total
          + limit := by
  have hfc : st.campaigns.filter (campaignMatches (some "active") none none none)
      = st.campaigns.filter (fun c => c.status == "active") := by
    apply List.filter_congr
    intro c _
    simp [campaignMatches]
  simp only [getCampaigns]
  rw [hfc]
  have hsub : List.Sublist
      (((List.insertionSort createdDesc
          (st.campaigns.filter (fun c => c.status == "active"))).drop
            ((page - 1) * limit)).take limit)
      (List.insertionSort createdDesc
        (st.campaigns.filter (fun c => c.status == "active"))) :=
    (List.take_sublist _ _).trans (List.drop_sublist _ _)
  refine ⟨?_, ?_, ?_, rfl, ?_, ?_⟩
  · intro c hc
    have hcS : c ∈ List.insertionSort createdDesc
        (st.campaigns.filter (fun c => c.status == "active")) :=
      hsub.subset hc
    have hcA : c ∈ st.campaigns.filter (fun c => c.status == "active") :=
      (List.perm_insertionSort createdDesc _).mem_iff.mp hcS
    exact eq_of_beq (List.mem_filter.mp hcA).2
  · exact List.Pairwise.sublist hsub (List.sorted_insertionSort createdDesc _)
  · exact ⟨List.insertionSort createdDesc
        (st.campaigns.filter (fun c => c.status == "active")),
      List.perm_insertionSort createdDesc _,
      List.sorted_insertionSort createdDesc _, rfl⟩
  · have hdm := Nat.div_add_mod
      ((st.campaigns.filter (fun c => c.status == "active")).length + limit - 1) limit
    have hml : ((st.campaigns.filter (fun c => c.status == "active")).length + limit - 1)
        % limit < limit := Nat.mod_lt _ (by omega)
    rw [Nat.mul_comm]
    generalize limit * (((st.campaigns.filter (fun c => c.status == "active")).length
        + limit - 1) / limit) = y at hdm ⊢
    generalize ((st.campaigns.filter (fun c => c.status == "active")).length + limit - 1)
        % limit = rr at hdm hml
    omega
  · have hdm := Nat.div_add_mod
      ((st.campaigns.filter (fun c => c.status == "active")).length + limit - 1) limit
    have hml : ((st.campaigns.filter (fun c => c.status == "active")).length + limit - 1)
        % limit < limit := Nat.mod_lt _ (by omega)
    rw [Nat.mul_comm]
    generalize limit * (((st.campaigns.filter (fun c => c.status == "active")).length
        + limit - 1) / limit) = y at hdm ⊢
    generalize ((st.campaigns.filter (fun c => c.status == "active")).length + limit - 1)
        % limit = rr at hdm hml
    omega

/-- Witness for C9 on the three-campaign demo store (two active, one draft),
page 1, limit 10. -/
theorem listCampaigns_active_correct_witness :
    (∀ c ∈ (getCampaigns demoStList (some "active") none none none 1 10).campaigns,
        c.status = "active") ∧
    List.Sorted createdDesc
      (getCampaigns demoStList (some "active") none none none 1 10).campaigns ∧
    (∃ full, List.Perm full
        (demoStList.campaigns.filter (fun c => c.status == "active")) ∧
       List.Sorted createdDesc full ∧
       (getCampaigns demoStList (some "active") none none none 1 10).campaigns
         = (full.drop ((1 - 1) * 10)).take 10) ∧
    (getCampaigns demoStList (some "active") none none none 1 10).pagination.total
      = (demoStList.campaigns.filter (fun c => c.status == "active")).length ∧
    (getCampaigns demoStList (some "active") none none none 1 10).pagination.total
      ≤ (getCampaigns demoStList (some "active") none none none 1 10).pagination.pages * 10 ∧
    (getCampaigns demoStList (some "active") none none none 1 10).pagination.pages * 10
      < (getCampaigns demoStList (some "active") none none none 1 10).pagination.total
          + 10 :=
  listCampaigns_active_correct demoStList 1 10 (by decide) (by decide) (by decide)

/-- C10: when the creator-username filter matches no user, getCampaigns
silently drops that filter and returns exactly what the same query without the
creator filter returns. -/
theorem creator_filter_dropped
    (st : St) (statusF : Option String) (startF endF : Option Nat)
    (page limit : Nat) (name : String)
    (h : st.users.find? (fun u => u.username == name) = none) :
    getCampaigns st statusF (some name) startF endF page limit
      = getCampaigns st statusF none startF endF page limit := by
  simp only [getCampaigns, h]

/-- Witness for C10: filtering by the unknown creator "ghost" returns the full
active listing. -/
theorem creator_filter_dropped_witness :
    getCampaigns demoStList (some "active") (some "ghost") none none 1 10
      = getCampaigns demoStList (some "active") none none none 1 10 :=
  creator_filter_dropped demoStList (some "active") none none 1 10 "ghost" rfl

/-- Witness for C7 at concrete inputs: "stream" verifies, "retweet" throws. -/
theorem verifyAction_verified_iff_supported_witness :
    (∃ r, verifyAction "stream" "https://open.spotify.com/track/x" "p" "w" 7 = Except.ok r ∧
        r.verified = true) ∧
    verifyAction "retweet" "https://x.com/post" "p" "w" 7 =
      Except.error ("Unsupported action type: " ++ "retweet") :=
  ⟨(verifyAction_verified_iff_supported "stream" "https://open.spotify.com/track/x" "p" "w" 7).1
      (by decide),
   (verifyAction_verified_iff_supported "retweet" "https://x.com/post" "p" "w" 7).2 (by decide)⟩

end Jerota
